import Mathlib

/-!
Verification development for the ShaderMaker shader compilation / rendering
engine.  The TypeScript sources are shallowly embedded:

* `parseUniforms` / `getDefaults` / `parseComment` embed the uniform-discovery
  module (regex-based scanning is embedded as deterministic left-to-right
  matching over `List Char`, which coincides with the JS regex semantics for
  the concrete patterns used — all of them are backtracking-free on the inputs
  where they are applied, as argued in the comments of each matcher).
* `parseInfoLog` embeds the info-log parser of `shader-compiler.ts`.
* `WebGLRenderer` embeds the renderer class as an explicit state record; GPU
  calls are modelled as an emitted trace (`GLCall`), and the behaviour of the
  underlying GL driver (compile / link outcomes, uniform locations) as an
  oracle record `GLEnv`.

Numbers are modelled as `ℚ` (all numeric literals accepted by the hint
grammar are finite decimals, which `ℚ` represents exactly).
-/

/-- JS `\s` character class (whitespace, as used by `RegExp` and
`String.prototype.trim`). -/
def jsIsSpace (c : Char) : Bool :=
  let n := c.toNat
  n == 0x20 || n == 0x9 || n == 0xa || n == 0xb || n == 0xc || n == 0xd ||
  n == 0xa0 || n == 0x1680 || (decide (0x2000 ≤ n) && decide (n ≤ 0x200a)) ||
  n == 0x2028 || n == 0x2029 || n == 0x202f || n == 0x205f ||
  n == 0x3000 || n == 0xfeff

/-- JS `\w` character class: `[A-Za-z0-9_]`. -/
def jsIsWord (c : Char) : Bool :=
  (decide ('a' ≤ c) && decide (c ≤ 'z')) ||
  (decide ('A' ≤ c) && decide (c ≤ 'Z')) ||
  (decide ('0' ≤ c) && decide (c ≤ '9')) || c == '_'

/-- JS `\d` character class. -/
def jsIsDigit (c : Char) : Bool :=
  decide ('0' ≤ c) && decide (c ≤ '9')

/-- JS line terminators (the characters `.` does not match). -/
def jsIsLineTerm (c : Char) : Bool :=
  c == '\n' || c == '\r' || c.toNat == 0x2028 || c.toNat == 0x2029

/-- JS `String.prototype.trim`: strip `\s` characters from both ends. -/
def jsTrim (l : List Char) : List Char :=
  ((l.dropWhile jsIsSpace).reverse.dropWhile jsIsSpace).reverse

/-- `jsTrim` on `String`s. -/
def jsTrimStr (s : String) : String :=
  String.mk (jsTrim s.toList)

/-- Strip an exact literal prefix, returning the remainder on success. -/
def stripLit : List Char → List Char → Option (List Char)
  | [], s => some s
  | _, [] => none
  | p :: ps, c :: cs => if c == p then stripLit ps cs else none

/-- Strip a literal prefix case-insensitively (ASCII folding, matching JS
`/i` on an ASCII pattern). -/
def stripLitCI : List Char → List Char → Option (List Char)
  | [], s => some s
  | _, [] => none
  | p :: ps, c :: cs => if c.toLower == p.toLower then stripLitCI ps cs else none

/-- Greedy `X+` for a character class: the (nonempty) maximal run and the
remainder. -/
def takeWhile1 (p : Char → Bool) (s : List Char) : Option (List Char × List Char) :=
  match s.takeWhile p with
  | [] => none
  | t => some (t, s.dropWhile p)

/-- Digits to the natural number they denote (base 10). -/
def digitsToNat (ds : List Char) : Nat :=
  ds.foldl (fun a c => 10 * a + (c.toNat - '0'.toNat)) 0

/-- Parse `[+-]?\d+(?:\.\d+)?` at the head of the input, greedily; returns the
exact rational value (this is what JS `parseFloat` returns for such a token,
up to float rounding) and the remainder.  The optional fraction group is
committed greedily; for every continuation used in this file the greedy
choice never needs to be undone (after the integer part a remaining `'.'`
can satisfy neither `\s*`, `,`, `:` nor end-of-pattern). -/
def matchNumber (s : List Char) : Option (ℚ × List Char) :=
  let signed : Bool × List Char :=
    match s with
    | '-' :: r => (true, r)
    | '+' :: r => (false, r)
    | _ => (false, s)
  let withSign : ℤ → ℤ := fun n => if signed.1 then -n else n
  match takeWhile1 jsIsDigit signed.2 with
  | none => none
  | some (ds, s2) =>
    match s2 with
    | '.' :: s3 =>
      match takeWhile1 jsIsDigit s3 with
      | some (fs, s4) =>
        -- sign * (intPart + fracDigits / 10^k), written as a single fraction
        some (mkRat (withSign (digitsToNat ds * 10 ^ fs.length + digitsToNat fs))
                    (10 ^ fs.length), s4)
      | none => some (mkRat (withSign (digitsToNat ds)) 1, s2)
    | _ => some (mkRat (withSign (digitsToNat ds)) 1, s2)

/-- A raw match of the declaration regex
`uniform\s+(float|int|vec2|vec3|vec4)\s+(\w+)\s*;([^\n]*)`. -/
structure RawDecl where
  ty : String
  name : String
  comment : String
deriving DecidableEq, Repr

/-- The type alternation `(float|int|vec2|vec3|vec4)`, tried in regex order.
No alternative is a prefix of another, so at most one can match at a given
position and first-match semantics is exact. -/
def matchTypeTok (s : List Char) : Option (String × List Char) :=
  match stripLit "float".toList s with
  | some r => some ("float", r)
  | none =>
    match stripLit "int".toList s with
    | some r => some ("int", r)
    | none =>
      match stripLit "vec2".toList s with
      | some r => some ("vec2", r)
      | none =>
        match stripLit "vec3".toList s with
        | some r => some ("vec3", r)
        | none =>
          match stripLit "vec4".toList s with
          | some r => some ("vec4", r)
          | none => none

/-- Try the whole declaration regex at the current position.  All repetitions
are over pairwise-disjoint character classes followed by literals outside the
class, so greedy matching is deterministic (no backtracking). -/
def matchDecl (s : List Char) : Option (RawDecl × List Char) :=
  match stripLit "uniform".toList s with
  | none => none
  | some s1 =>
    match takeWhile1 jsIsSpace s1 with
    | none => none
    | some (_, s2) =>
      match matchTypeTok s2 with
      | none => none
      | some (ty, s3) =>
        match takeWhile1 jsIsSpace s3 with
        | none => none
        | some (_, s4) =>
          match takeWhile1 jsIsWord s4 with
          | none => none
          | some (nm, s5) =>
            match stripLit [';'] (s5.dropWhile jsIsSpace) with
            | none => none
            | some s7 =>
              some (⟨ty, String.mk nm, String.mk (s7.takeWhile (fun c => c != '\n'))⟩,
                    s7.dropWhile (fun c => c != '\n'))

/-- Global scan (the `while ((match = uniformRegex.exec(code)) !== null)` loop
of `parseUniforms`): successive non-overlapping matches, resuming after each
match, advancing one character where no match starts.  `fuel` is the length
of the scanned string; each step consumes at least one character, so the fuel
never runs out on the initial call. -/
def scanAux : Nat → List Char → List RawDecl
  | 0, _ => []
  | _ + 1, [] => []
  | fuel + 1, c :: rest =>
    match matchDecl (c :: rest) with
    | some (d, rest') => d :: scanAux fuel rest'
    | none => scanAux fuel rest

/-- All raw matches of the declaration regex in a source string. -/
def scanUniforms (code : String) : List RawDecl :=
  scanAux code.toList.length code.toList

/-- A uniform value: JS `number | number[]`. -/
inductive UVal where
  | num (x : ℚ)
  | arr (xs : List ℚ)
deriving DecidableEq, Repr

/-- The `UniformDef` record of `types/shader.ts` (numbers as `ℚ`, the type
tag as its literal string). -/
structure UniformDef where
  name : String
  type : String
  value : UVal
  min : ℚ
  max : ℚ
  step : ℚ
deriving DecidableEq, Repr

/-- `BUILTIN_UNIFORMS`. -/
def BUILTIN_UNIFORMS : List String := ["u_resolution", "u_time", "u_mouse"]

/-- `BUILTIN_UNIFORMS.has(name)`. -/
def isBuiltin (name : String) : Bool := BUILTIN_UNIFORMS.contains name

/-- `SUPPORTED_TYPES`. -/
def SUPPORTED_TYPES : List String := ["float", "int", "vec2", "vec3", "vec4"]

/-- `SUPPORTED_TYPES.has(type)`. -/
def isSupported (ty : String) : Bool := SUPPORTED_TYPES.contains ty

/-- Contiguous-substring test on character lists. -/
def listInfix (sub : List Char) : List Char → Bool
  | [] => sub.isEmpty
  | c :: rest => sub.isPrefixOf (c :: rest) || listInfix sub rest

/-- `name.toLowerCase().includes(sub)` for ASCII `sub`. -/
def strContains (s sub : String) : Bool := listInfix sub.toList s.toList

/-- `getDefaults`: seed a descriptor with type-specific defaults. -/
def getDefaults (ty name : String) : UniformDef :=
  if ty = "float" then ⟨name, ty, .num (mkRat 1 2), 0, 1, mkRat 1 100⟩
  else if ty = "int" then ⟨name, ty, .num 1, 0, 10, 1⟩
  else if ty = "vec2" then ⟨name, ty, .arr [0, 0], -1, 1, mkRat 1 100⟩
  else if ty = "vec3" then
    let isColor := strContains name.toLower "color"
    ⟨name, ty, .arr (if isColor then [1, 1, 1] else [0, 0, 0]),
     if isColor then 0 else -1, 1, mkRat 1 100⟩
  else ⟨name, ty, .arr [0, 0, 0, 1], 0, 1, mkRat 1 100⟩

/-- `comment.replace(/^\s*\/\/\s*/, '').trim()`.  The anchored replace fires
exactly when the first non-`\s` characters are `//` (greedy `\s*` before a
non-space literal is deterministic). -/
def stripComment (comment : String) : List Char :=
  let l := comment.toList
  match stripLit ['/', '/'] (l.dropWhile jsIsSpace) with
  | some r => jsTrim (r.dropWhile jsIsSpace)
  | none => jsTrim l

/-- Unanchored first-match search: try the matcher at every position, left to
right (the JS `String.prototype.match` semantics for the non-anchored hint
patterns, none of which can match at the empty end-of-string position). -/
def searchAux (f : List Char → Option α) : List Char → Option α
  | [] => none
  | c :: rest =>
    match f (c :: rest) with
    | some a => some a
    | none => searchAux f rest

/-- `range:\s*([+-]?\d+(?:\.\d+)?)\s*,\s*([+-]?\d+(?:\.\d+)?)` tried at one
position. -/
def matchRangeAt (s : List Char) : Option (ℚ × ℚ) :=
  match stripLit "range:".toList s with
  | none => none
  | some s1 =>
    match matchNumber (s1.dropWhile jsIsSpace) with
    | none => none
    | some (a, s2) =>
      match stripLit [','] (s2.dropWhile jsIsSpace) with
      | none => none
      | some s3 =>
        match matchNumber (s3.dropWhile jsIsSpace) with
        | none => none
        | some (b, _) => some (a, b)

/-- The repetition tail of the `default:` capture
`((?:[+-]?\d+(?:\.\d+)?(?:\s*,\s*)?)+)`: after one number, keep consuming
`\s*,\s*` followed by a number.  A trailing separator with no following
number ends the repetition; in the JS code it survives into the captured
string but is discarded by the `split/trim/filter` pipeline, so collecting
the numbers directly is equivalent. -/
def defaultRest : Nat → List Char → List ℚ
  | 0, _ => []
  | fuel + 1, s =>
    match stripLit [','] (s.dropWhile jsIsSpace) with
    | none => []
    | some s2 =>
      match matchNumber (s2.dropWhile jsIsSpace) with
      | none => []
      | some (v, s3) => v :: defaultRest fuel s3

/-- `default:\s*((?:[+-]?\d+(?:\.\d+)?(?:\s*,\s*)?)+)` tried at one position,
returning the parsed numbers (at least one). -/
def matchDefaultAt (s : List Char) : Option (ℚ × List ℚ) :=
  match stripLit "default:".toList s with
  | none => none
  | some s1 =>
    match matchNumber (s1.dropWhile jsIsSpace) with
    | none => none
    | some (v, s2) => some (v, defaultRest s2.length s2)

/-- `step:\s*([+-]?\d+(?:\.\d+)?)` tried at one position. -/
def matchStepAt (s : List Char) : Option ℚ :=
  match stripLit "step:".toList s with
  | none => none
  | some s1 =>
    match matchNumber (s1.dropWhile jsIsSpace) with
    | none => none
    | some (v, _) => some v

/-- JS `Math.round`: half-way cases round toward `+∞`. -/
def jsRound (q : ℚ) : ℤ := ⌊q + 1/2⌋

/-- The `for (let i = 0; i < Math.min(rawValues.length, componentCount); i++)
newArr[i] = rawValues[i]` loop: overwrite leading components, keep the rest. -/
def overwriteLeading : List ℚ → List ℚ → List ℚ
  | cur, [] => cur
  | [], _ => []
  | _ :: cs, v :: vs => v :: overwriteLeading cs vs

/-- The `rangeMatch` block of `parseComment`: override `min`/`max` when the
`range:` hint is present. -/
def applyRange (stripped : List Char) (d : UniformDef) : UniformDef :=
  match searchAux matchRangeAt stripped with
  | some (a, b) => { d with min := a, max := b }
  | none => d

/-- The `defaultMatch` block of `parseComment`: override the value (whole for
scalars, rounding for `int`; leading components only for vectors) when the
`default:` hint is present.  (The `.num` fallback in the vector branch is
unreachable: vector descriptors are always seeded with an array value.) -/
def applyDefault (stripped : List Char) (ty : String) (d : UniformDef) : UniformDef :=
  match searchAux matchDefaultAt stripped with
  | some (v, vs) =>
    if ty = "float" || ty = "int" then
      { d with value := .num (if ty = "int" then ((jsRound v : ℤ) : ℚ) else v) }
    else
      match d.value with
      | .arr cur => { d with value := .arr (overwriteLeading cur (v :: vs)) }
      | .num x => { d with value := .num x }
  | none => d

/-- The `stepMatch` block of `parseComment`: override `step` when the `step:`
hint is present. -/
def applyStep (stripped : List Char) (d : UniformDef) : UniformDef :=
  match searchAux matchStepAt stripped with
  | some st => { d with step := st }
  | none => d

/-- `parseComment`: apply `range:` / `default:` / `step:` hint overrides from
the trailing comment to a seeded descriptor, in that fixed evaluation order
(the three searches are independent of one another). -/
def parseComment (comment : String) (ty : String) (d : UniformDef) : UniformDef :=
  let stripped := stripComment comment
  if stripped.isEmpty then d
  else applyStep stripped (applyDefault stripped ty (applyRange stripped d))

/-- Build one descriptor from a raw declaration match (seed defaults, then
apply comment hints). -/
def mkDef (d : RawDecl) : UniformDef :=
  parseComment d.comment d.ty (getDefaults d.ty d.name)

/-- The body of `parseUniforms`' scan loop: raw matches are skipped when the
name is built-in or the type unsupported, otherwise seeded and hint-adjusted
descriptors are pushed in match order. -/
def parseUniformsAux : Nat → List Char → List UniformDef
  | 0, _ => []
  | _ + 1, [] => []
  | fuel + 1, c :: rest =>
    match matchDecl (c :: rest) with
    | some (d, rest') =>
      if isBuiltin d.name then parseUniformsAux fuel rest'
      else if !isSupported d.ty then parseUniformsAux fuel rest'
      else mkDef d :: parseUniformsAux fuel rest'
    | none => parseUniformsAux fuel rest

/-- `parseUniforms`: discover controllable uniforms in a GLSL source. -/
def parseUniforms (code : String) : List UniformDef :=
  parseUniformsAux code.toList.length code.toList

/-- A structured diagnostic `{ line, message }` as produced by the info-log
parser of `shader-compiler.ts`. -/
structure Diag where
  line : Nat
  message : String
deriving DecidableEq, Repr

/-- JS `log.split('\n')`: split at every newline, keeping empty pieces (an
empty input yields one empty piece). -/
def splitLines : List Char → List (List Char)
  | [] => [[]]
  | c :: rest =>
    let r := splitLines rest
    if c == '\n' then [] :: r
    else (c :: r.headD []) :: r.tail

/-- The anchored per-line regex
`^(?:ERROR|WARNING):\s*\d+:(\d+):\s*(.+)` with the `i` flag, applied to an
already `trim`med line; on success the captured line number and the
`trim`med captured message.  (`ERROR` and `WARNING` start with different
letters, so the alternation is deterministic; every JS line terminator is
also a `\s` character, so on a trimmed line the greedy `\s*(.+)` needs no
backtracking: `.+` is the maximal run of non-terminators after the spaces,
nonempty exactly when anything at all follows.) -/
def matchLogLineAt (t : List Char) : Option Diag :=
  match stripLitCI "error".toList t <|> stripLitCI "warning".toList t with
  | none => none
  | some s1 =>
    match stripLit [':'] s1 with
    | none => none
    | some s2 =>
      match takeWhile1 jsIsDigit (s2.dropWhile jsIsSpace) with
      | none => none
      | some (_, s4) =>
        match stripLit [':'] s4 with
        | none => none
        | some s5 =>
          match takeWhile1 jsIsDigit s5 with
          | none => none
          | some (ds2, s6) =>
            match stripLit [':'] s6 with
            | none => none
            | some s7 =>
              match (s7.dropWhile jsIsSpace).takeWhile (fun c => !jsIsLineTerm c) with
              | [] => none
              | msg => some ⟨digitsToNat ds2, String.mk (jsTrim msg)⟩

/-- One iteration of the `for (const raw of lines)` loop of `parseInfoLog`:
skip a line that is empty after trimming, otherwise emit the parsed
diagnostic, or the whole trimmed line at line 0 when the pattern does not
match. -/
def processLine (raw : List Char) : Option Diag :=
  let t := jsTrim raw
  if t.isEmpty then none
  else
    match matchLogLineAt t with
    | some d => some d
    | none => some ⟨0, String.mk t⟩

/-- `parseInfoLog`: parse a driver info log into structured diagnostics. -/
def parseInfoLog (log : String) : List Diag :=
  let l := log.toList
  if l.isEmpty || (jsTrim l).isEmpty then []
  else (splitLines l).filterMap processLine

/-- Modelled from the spec: the per-line contract of the log parser — a
trimmed non-empty line either matches `SEVERITY: 0:LINE: message` and yields
the parsed line number with the trimmed message, or is kept whole at
line 0. -/
def lineDiag (t : List Char) : Diag :=
  match matchLogLineAt t with
  | some d => d
  | none => ⟨0, String.mk t⟩

/-- Modelled from the spec: the whole-log contract — trim every line, drop
only the empty ones, and map each survivor through the per-line contract
(no early return, nothing else dropped). -/
def specInfoLog (log : String) : List Diag :=
  (((splitLines log.toList).map jsTrim).filter (fun t => !t.isEmpty)).map lineDiag

/-- A single-quote character as a string (avoids quote literals). -/
def sqStr : String := String.mk [Char.ofNat 39]

/-- GPU calls issued against the device context, recorded as a trace
(resource allocation/release, uniform uploads, and draw commands). -/
inductive GLCall where
  | createShader (id : Nat)
  | deleteShader (id : Nat)
  | createProgram (id : Nat)
  | deleteProgram (id : Nat)
  | createVertexArray (id : Nat)
  | deleteVertexArray (id : Nat)
  | viewport (w h : ℚ)
  | clearColor (r g b a : ℚ)
  | clear
  | useProgram (id : Nat)
  | uniform1f (loc : Nat) (x : ℚ)
  | uniform2f (loc : Nat) (x y : ℚ)
  | uniform3f (loc : Nat) (x y z : ℚ)
  | uniform4f (loc : Nat) (x y z w : ℚ)
  | bindVertexArray (id : Option Nat)
  | drawArrays (first count : Nat)
deriving DecidableEq, Repr

/-- Driver verdict for one shader-stage compilation: `gl.createShader`
returned null, `COMPILE_STATUS` false with the given raw info log, or
success. -/
inductive StageOutcome where
  | createFail
  | compileFail (log : String)
  | ok
deriving DecidableEq, Repr

/-- Driver verdict for program linking, analogous to `StageOutcome`. -/
inductive LinkOutcome where
  | createFail
  | linkFail (log : String)
  | ok
deriving DecidableEq, Repr

/-- Oracle for the GL driver: stage/link outcomes as a function of the
fragment source, and uniform locations keyed by the source the current
program was linked from together with the uniform name. -/
structure GLEnv where
  vertOutcome : StageOutcome
  fragOutcome : String → StageOutcome
  linkOutcome : String → LinkOutcome
  getLoc : String → String → Option Nat

/-- The `{ success, errors }` result of `WebGLRenderer.compile`
(`CompileResult` in `types/shader.ts`). -/
structure CompileResult where
  success : Bool
  errors : List Diag
deriving DecidableEq, Repr

/-- Result record of `compileShader` in `shader-compiler.ts`. -/
structure StageResult where
  success : Bool
  shader : Option Nat
  errors : List Diag
deriving DecidableEq, Repr

/-- Result record of `linkProgram` in `shader-compiler.ts`. -/
structure LinkResult where
  success : Bool
  program : Option Nat
  errors : List Diag
deriving DecidableEq, Repr

/-- `compileShader` of `shader-compiler.ts`: allocate a shader handle (fresh
ids are drawn from a counter), ask the driver, and on rejection parse the
info log and release the handle before returning. -/
def compileShader (outcome : StageOutcome) (nextId : Nat) :
    Nat × StageResult × List GLCall :=
  match outcome with
  | .createFail =>
    (nextId, ⟨false, none, [⟨0, "Failed to create shader object"⟩]⟩, [])
  | .compileFail log =>
    (nextId + 1, ⟨false, none, parseInfoLog log⟩,
     [.createShader nextId, .deleteShader nextId])
  | .ok =>
    (nextId + 1, ⟨true, some nextId, []⟩, [.createShader nextId])

/-- `linkProgram` of `shader-compiler.ts`: allocate a program handle, link,
and on failure parse the info log and release the handle before returning. -/
def linkProgram (outcome : LinkOutcome) (nextId : Nat) :
    Nat × LinkResult × List GLCall :=
  match outcome with
  | .createFail =>
    (nextId, ⟨false, none, [⟨0, "Failed to create program object"⟩]⟩, [])
  | .linkFail log =>
    (nextId + 1, ⟨false, none, parseInfoLog log⟩,
     [.createProgram nextId, .deleteProgram nextId])
  | .ok =>
    (nextId + 1, ⟨true, some nextId, []⟩, [.createProgram nextId])

/-- Per-uniform bookkeeping (`CustomUniformEntry`). -/
structure CUEntry where
  location : Option Nat
  value : UVal
deriving DecidableEq, Repr

/-- The state of a `WebGLRenderer` instance.  `gl` records whether a device
context is held; `canvas` the attached surface's pixel dimensions; handles
are `Nat`s drawn from the `nextId` allocator; `customUniforms` is the
insertion-ordered `Map`; `programSource` is a ghost field recording which
fragment source the current program was linked from (it keys the
uniform-location oracle and corresponds to no runtime data). -/
structure WebGLRenderer where
  gl : Bool
  canvas : Option (ℚ × ℚ)
  program : Option Nat
  vertexShader : Option Nat
  fragmentShader : Option Nat
  vao : Option Nat
  rafId : Option Nat
  startTime : ℚ
  mousePos : ℚ × ℚ
  customUniforms : List (String × CUEntry)
  contextLost : Bool
  lastFragmentSource : Option String
  uTime : Option Nat
  uResolution : Option Nat
  uMouse : Option Nat
  programSource : Option String
  nextId : Nat
deriving DecidableEq, Repr

namespace WebGLRenderer

/-- A freshly constructed renderer (`new WebGLRenderer()`): every field at
its initialiser. -/
def initial : WebGLRenderer :=
  ⟨false, none, none, none, none, none, none, 0, (0, 0), [], false,
   none, none, none, none, none, 0⟩

/-- `JS Map.prototype.set`: replace in place when the key exists, append
otherwise. -/
def mapSet : List (String × CUEntry) → String → CUEntry → List (String × CUEntry)
  | [], n, e => [(n, e)]
  | (k, old) :: rest, n, e =>
    if k = n then (n, e) :: rest else (k, old) :: mapSet rest n e

/-- Private `deleteProgram`: release the current program and its two stages
when a context is held, and null the cached built-in locations. -/
def deleteProgram (st : WebGLRenderer) : WebGLRenderer × List GLCall :=
  if st.gl then
    ({ st with
        program := none, vertexShader := none, fragmentShader := none,
        uTime := none, uResolution := none, uMouse := none, programSource := none },
     (match st.program with | some p => [GLCall.deleteProgram p] | none => [])
     ++ (match st.vertexShader with | some s => [GLCall.deleteShader s] | none => [])
     ++ (match st.fragmentShader with | some s => [GLCall.deleteShader s] | none => []))
  else (st, [])

/-- `compile`: compile the fixed vertex stage and the given fragment source,
link, and on success atomically swap the program in, refresh the built-in
uniform locations and re-resolve every custom uniform binding.  On any
failure the previous program fields are untouched.  The incoming source is
recorded as `lastFragmentSource` on every path past the missing-context
guard. -/
def compile (env : GLEnv) (fragmentSource : String) (st : WebGLRenderer) :
    WebGLRenderer × CompileResult × List GLCall :=
  if st.gl = false then
    (st, ⟨false, [⟨0, "WebGL context not initialised"⟩]⟩, [])
  else
    let st0 := { st with lastFragmentSource := some fragmentSource }
    let (n1, vr, t1) := compileShader env.vertOutcome st0.nextId
    let st1 := { st0 with nextId := n1 }
    if vr.success = false then (st1, ⟨false, vr.errors⟩, t1)
    else
      let (n2, fr, t2) := compileShader (env.fragOutcome fragmentSource) st1.nextId
      let st2 := { st1 with nextId := n2 }
      if fr.success = false then
        -- clean up the vertex shader we just created
        let t3 := match vr.shader with | some s => [GLCall.deleteShader s] | none => []
        (st2, ⟨false, fr.errors⟩, t1 ++ t2 ++ t3)
      else
        let (n3, lr, t4) := linkProgram (env.linkOutcome fragmentSource) st2.nextId
        let st3 := { st2 with nextId := n3 }
        if lr.success = false then
          let t5 := (match vr.shader with | some s => [GLCall.deleteShader s] | none => [])
            ++ (match fr.shader with | some s => [GLCall.deleteShader s] | none => [])
          (st3, ⟨false, lr.errors⟩, t1 ++ t2 ++ t4 ++ t5)
        else
          let (st4, t6) := st3.deleteProgram
          let st5 := { st4 with
            vertexShader := vr.shader,
            fragmentShader := fr.shader,
            program := lr.program,
            uTime := env.getLoc fragmentSource "u_time",
            uResolution := env.getLoc fragmentSource "u_resolution",
            uMouse := env.getLoc fragmentSource "u_mouse",
            programSource := some fragmentSource,
            customUniforms := st4.customUniforms.map
              (fun e => (e.1, { e.2 with location := env.getLoc fragmentSource e.1 })) }
          (st5, ⟨true, []⟩, t1 ++ t2 ++ t4 ++ t6)

/-- `render`: a single frame.  Mutates nothing (the source method assigns no
field); returns the full trace of GPU calls issued, which is empty exactly on
the early-out guard (no context, no program, or context lost). -/
def render (st : WebGLRenderer) (time : ℚ) (res : ℚ × ℚ) (mouse : ℚ × ℚ) :
    List GLCall :=
  match st.program with
  | none => []
  | some p =>
    if st.gl = false || st.contextLost then []
    else
      [GLCall.viewport res.1 res.2, GLCall.clearColor 0 0 0 1, GLCall.clear,
       GLCall.useProgram p]
      ++ (match st.uTime with | some l => [GLCall.uniform1f l time] | none => [])
      ++ (match st.uResolution with
          | some l => [GLCall.uniform2f l res.1 res.2] | none => [])
      ++ (match st.uMouse with
          | some l => [GLCall.uniform2f l mouse.1 mouse.2] | none => [])
      ++ (st.customUniforms.map (fun e =>
            match e.2.location with
            | none => []
            | some l =>
              match e.2.value with
              | .num v => [GLCall.uniform1f l v]
              | .arr [x, y] => [GLCall.uniform2f l x y]
              | .arr [x, y, z] => [GLCall.uniform3f l x y z]
              | .arr [x, y, z, w] => [GLCall.uniform4f l x y z w]
              | .arr _ => [])).flatten
      ++ [GLCall.bindVertexArray st.vao, GLCall.drawArrays 0 3,
          GLCall.bindVertexArray none]

/-- `setCustomUniform`: insert or replace an entry, resolving its location
against the current program when one is held. -/
def setCustomUniform (env : GLEnv) (name : String) (value : UVal)
    (st : WebGLRenderer) : WebGLRenderer :=
  let location :=
    match st.programSource with
    | some ps => if st.gl && st.program.isSome then env.getLoc ps name else none
    | none => none
  { st with customUniforms := mapSet st.customUniforms name ⟨location, value⟩ }

/-- `setMouse`. -/
def setMouse (x y : ℚ) (st : WebGLRenderer) : WebGLRenderer :=
  { st with mousePos := (x, y) }

/-- `stopLoop`: cancel the scheduled frame callback, if any. -/
def stopLoop (st : WebGLRenderer) : WebGLRenderer :=
  { st with rafId := none }

/-- `startLoop`: no-op when already running; otherwise reset the animation
clock to `now` (the current `performance.now()/1000`) and schedule the first
frame callback under the host-provided handle `newRafId`. -/
def startLoop (now : ℚ) (newRafId : Nat) (st : WebGLRenderer) : WebGLRenderer :=
  if st.rafId.isSome then st
  else { st with startTime := now, rafId := some newRafId }

/-- One invocation of the `tick` closure of `startLoop` at host time `now`
(seconds): bail out when the context is lost, otherwise render at the
elapsed time since the clock was started and re-schedule. -/
def tick (now : ℚ) (newRafId : Nat) (st : WebGLRenderer) :
    WebGLRenderer × List GLCall :=
  if st.contextLost then ({ st with rafId := none }, [])
  else
    ({ st with rafId := some newRafId },
     st.render (now - st.startTime) (st.canvas.getD (0, 0)) st.mousePos)

/-- `resize`: update surface dimensions and viewport; nothing else. -/
def resize (w h : ℚ) (st : WebGLRenderer) : WebGLRenderer × List GLCall :=
  if st.canvas.isNone || st.gl = false then (st, [])
  else ({ st with canvas := some (w, h) }, [GLCall.viewport w h])

/-- The `webglcontextlost` handler: suppress default recovery
(`preventDefault`, host side), flag Lost, stop the loop. -/
def handleContextLost (st : WebGLRenderer) : WebGLRenderer :=
  { st with contextLost := true, rafId := none }

/-- Private `reInit`: after a restore, recreate the VAO and recompile the
last known fragment source, if any. -/
def reInit (env : GLEnv) (st : WebGLRenderer) : WebGLRenderer × List GLCall :=
  if st.gl = false then (st, [])
  else
    let st1 := { st with vao := some st.nextId, nextId := st.nextId + 1 }
    match st1.lastFragmentSource with
    | some src =>
      let (st2, _, t) := compile env src st1
      (st2, GLCall.createVertexArray st.nextId :: t)
    | none => (st1, [GLCall.createVertexArray st.nextId])

/-- The `webglcontextrestored` handler: clear the Lost flag and `reInit`. -/
def handleContextRestored (env : GLEnv) (st : WebGLRenderer) :
    WebGLRenderer × List GLCall :=
  reInit env { st with contextLost := false }

/-- `init`: acquire a context on the given surface (`glAvailable` is the
host's verdict), allocate the VAO and register the loss/restore listeners
(listener registration itself is host-side).  Returns the success flag. -/
def init (glAvailable : Bool) (canvasDims : ℚ × ℚ) (st : WebGLRenderer) :
    Bool × WebGLRenderer × List GLCall :=
  if glAvailable = false then (false, st, [])
  else
    (true,
     { st with
        gl := true, canvas := some canvasDims, contextLost := false,
        vao := some st.nextId, nextId := st.nextId + 1 },
     [GLCall.createVertexArray st.nextId])

/-- `destroy`: stop the loop, release the program, stages and geometry,
force a context loss (host side) and drop the context and surface; the
custom-uniform map is cleared. -/
def destroy (st : WebGLRenderer) : WebGLRenderer × List GLCall :=
  let st1 := st.stopLoop
  let cleanup : WebGLRenderer × List GLCall :=
    if st1.gl then
      match st1.deleteProgram with
      | (st2, t1) =>
        match st2.vao with
        | some v => ({ st2 with vao := none }, t1 ++ [GLCall.deleteVertexArray v])
        | none => (st2, t1)
    else (st1, [])
  ({ cleanup.1 with gl := false, canvas := none, customUniforms := [] }, cleanup.2)

end WebGLRenderer

/-- The lost-then-restored handler sequence of Scenario E: the engine receives
an asynchronous `webglcontextlost` signal and later a `webglcontextrestored`
signal, with no external call in between. -/
def restoreFlow (env : GLEnv) (st : WebGLRenderer) : WebGLRenderer × List GLCall :=
  WebGLRenderer.handleContextRestored env st.handleContextLost

/-- A driver oracle on which every compilation and link succeeds and no
uniform location resolves. -/
def env0 : GLEnv :=
  ⟨.ok, fun _ => .ok, fun _ => .ok, fun _ _ => none⟩

/-- A driver oracle that rejects every fragment source (the vertex stage and
linking would succeed). -/
def envFragFail : GLEnv :=
  ⟨.ok, fun _ => .compileFail "ERROR: 0:2: boom", fun _ => .ok, fun _ _ => none⟩

/-- A renderer that has initialised successfully and holds a current program
(handle 5) from an earlier successful compile of source `"old"`. -/
def readyState : WebGLRenderer :=
  { WebGLRenderer.initial with
      gl := true, canvas := some (2, 2), program := some 5,
      vertexShader := some 3, fragmentShader := some 4, vao := some 2,
      lastFragmentSource := some "old", programSource := some "old",
      nextId := 10 }

/-- `readyState` with the frame loop running. -/
def runningState : WebGLRenderer :=
  { readyState with rafId := some 7 }


theorem matchTypeTok_supported (s : List Char) (t : String) (r : List Char)
    (h : matchTypeTok s = some (t, r)) : isSupported t = true := by
  unfold matchTypeTok at h
  repeat' split at h
  all_goals simp_all [isSupported, SUPPORTED_TYPES]

theorem matchDecl_supported (s : List Char) (d : RawDecl) (r : List Char)
    (h : matchDecl s = some (d, r)) : isSupported d.ty = true := by
  unfold matchDecl at h
  repeat' split at h
  any_goals exact Option.noConfusion h
  injection h with h1
  injection h1 with h2 h3
  subst h2
  exact matchTypeTok_supported _ _ _ (by assumption)

theorem scanAux_supported (fuel : Nat) (s : List Char) (d : RawDecl)
    (h : d ∈ scanAux fuel s) : isSupported d.ty = true := by
  induction fuel generalizing s with
  | zero => simp [scanAux] at h
  | succ n ih =>
    cases s with
    | nil => simp [scanAux] at h
    | cons c rest =>
      rw [scanAux] at h
      revert h
      split
      · next d' rest' hm =>
        intro h
        rcases List.mem_cons.mp h with rfl | h
        · exact matchDecl_supported _ _ _ hm
        · exact ih _ h
      · exact fun h => ih _ h

theorem parseUniformsAux_eq (fuel : Nat) (s : List Char) :
    parseUniformsAux fuel s
      = ((scanAux fuel s).filter
          (fun d => !isBuiltin d.name && isSupported d.ty)).map mkDef := by
  induction fuel generalizing s with
  | zero => simp [parseUniformsAux, scanAux]
  | succ n ih =>
    cases s with
    | nil => simp [parseUniformsAux, scanAux]
    | cons c rest =>
      rw [parseUniformsAux, scanAux]
      split
      · next d rest' _ =>
        by_cases hb : isBuiltin d.name
        · simp [hb, List.filter_cons, ih]
        · by_cases hs : isSupported d.ty
          · simp [hb, hs, List.filter_cons, ih]
          · simp [hb, hs, List.filter_cons, ih]
      · exact ih rest

theorem length_filter_not_eq (l : List α) (p : α → Bool) :
    (l.filter (fun a => !(p a))).length = l.length - (l.filter p).length := by
  induction l with
  | nil => rfl
  | cons a t ih =>
    have hle := List.length_filter_le p t
    by_cases h : p a
    · simp [List.filter_cons, h, ih]
      try omega
    · simp [List.filter_cons, h, ih]
      try omega

theorem getDefaults_name (ty name : String) : (getDefaults ty name).name = name := by
  unfold getDefaults
  repeat' split
  all_goals rfl

theorem getDefaults_type (ty name : String) : (getDefaults ty name).type = ty := by
  unfold getDefaults
  repeat' split
  all_goals rfl

theorem applyRange_name (s : List Char) (d : UniformDef) :
    (applyRange s d).name = d.name := by
  unfold applyRange
  repeat' split
  all_goals rfl

theorem applyDefault_name (s : List Char) (ty : String) (d : UniformDef) :
    (applyDefault s ty d).name = d.name := by
  unfold applyDefault
  repeat' split
  all_goals rfl

theorem applyStep_name (s : List Char) (d : UniformDef) :
    (applyStep s d).name = d.name := by
  unfold applyStep
  repeat' split
  all_goals rfl

theorem parseComment_name (c ty : String) (d : UniformDef) :
    (parseComment c ty d).name = d.name := by
  dsimp only [parseComment]
  split
  · rfl
  · rw [applyStep_name, applyDefault_name, applyRange_name]

theorem mkDef_name (d : RawDecl) : (mkDef d).name = d.name := by
  rw [mkDef, parseComment_name, getDefaults_name]

/-- C2: for every source string, the number of descriptors returned by
uniform discovery equals the number of declaration matches of
`uniform <type> <name>;` (which by construction of the pattern all carry a
supported type) minus the number of those matches whose name is one of the
three reserved built-ins; in particular, a source declaring nothing beyond
the three built-ins yields the empty list. -/
theorem parseUniforms_length_contract :
    (∀ code : String,
      (parseUniforms code).length
        = (scanUniforms code).length
          - ((scanUniforms code).filter (fun d => isBuiltin d.name)).length) ∧
    parseUniforms "precision highp float;\nuniform vec2 u_resolution;\nuniform float u_time;\nuniform vec2 u_mouse;\n" = [] := by
  constructor
  · intro code
    rw [parseUniforms, scanUniforms, parseUniformsAux_eq, List.length_map]
    have hcong : (scanAux code.toList.length code.toList).filter
          (fun d => !isBuiltin d.name && isSupported d.ty)
        = (scanAux code.toList.length code.toList).filter (fun d => !isBuiltin d.name) := by
      apply List.filter_congr
      intro d hd
      rw [scanAux_supported _ _ _ hd, Bool.and_true]
    rw [hcong]
    exact length_filter_not_eq _ (fun (d : RawDecl) => isBuiltin d.name)
  · decide

theorem applyRange_preserves (s : List Char) (d : UniformDef) :
    (applyRange s d).value = d.value ∧ (applyRange s d).step = d.step := by
  unfold applyRange
  repeat' split
  all_goals exact ⟨rfl, rfl⟩

theorem applyRange_range (s : List Char) (d : UniformDef) :
    (applyRange s d).min
      = (match searchAux matchRangeAt s with
         | some (a, _) => a
         | none => d.min) ∧
    (applyRange s d).max
      = (match searchAux matchRangeAt s with
         | some (_, b) => b
         | none => d.max) := by
  cases h : searchAux matchRangeAt s with
  | none => simp [applyRange, h]
  | some ab =>
    obtain ⟨a, b⟩ := ab
    simp [applyRange, h]

theorem applyDefault_preserves (s : List Char) (ty : String) (d : UniformDef) :
    (applyDefault s ty d).min = d.min ∧ (applyDefault s ty d).max = d.max ∧
    (applyDefault s ty d).step = d.step := by
  unfold applyDefault
  repeat' split
  all_goals exact ⟨rfl, rfl, rfl⟩

theorem applyDefault_value (s : List Char) (ty : String) (d : UniformDef) :
    (applyDefault s ty d).value
      = (match searchAux matchDefaultAt s with
         | some (v, vs) =>
           if ty = "float" || ty = "int" then
             UVal.num (if ty = "int" then ((jsRound v : ℤ) : ℚ) else v)
           else
             match d.value with
             | .arr cur => .arr (overwriteLeading cur (v :: vs))
             | .num x => .num x
         | none => d.value) := by
  cases h : searchAux matchDefaultAt s with
  | none => simp [applyDefault, h]
  | some vvs =>
    obtain ⟨v, vs⟩ := vvs
    simp only [applyDefault, h]
    repeat' split
    all_goals rfl

theorem applyStep_preserves (s : List Char) (d : UniformDef) :
    (applyStep s d).min = d.min ∧ (applyStep s d).max = d.max ∧
    (applyStep s d).value = d.value := by
  unfold applyStep
  repeat' split
  all_goals exact ⟨rfl, rfl, rfl⟩

theorem applyStep_step (s : List Char) (d : UniformDef) :
    (applyStep s d).step
      = (match searchAux matchStepAt s with
         | some v => v
         | none => d.step) := by
  cases h : searchAux matchStepAt s with
  | none => simp [applyStep, h]
  | some v => simp [applyStep, h]

theorem parseComment_min (c ty : String) (d : UniformDef) :
    (parseComment c ty d).min
      = (match searchAux matchRangeAt (stripComment c) with
         | some (a, _) => a
         | none => d.min) := by
  by_cases hemp : (stripComment c).isEmpty
  · have hnil : stripComment c = [] := by simpa using hemp
    simp [parseComment, hemp, hnil, searchAux]
  · simp only [parseComment, hemp, Bool.false_eq_true, if_false]
    rw [(applyStep_preserves _ _).1, (applyDefault_preserves _ _ _).1,
      (applyRange_range _ _).1]

theorem parseComment_max (c ty : String) (d : UniformDef) :
    (parseComment c ty d).max
      = (match searchAux matchRangeAt (stripComment c) with
         | some (_, b) => b
         | none => d.max) := by
  by_cases hemp : (stripComment c).isEmpty
  · have hnil : stripComment c = [] := by simpa using hemp
    simp [parseComment, hemp, hnil, searchAux]
  · simp only [parseComment, hemp, Bool.false_eq_true, if_false]
    rw [(applyStep_preserves _ _).2.1, (applyDefault_preserves _ _ _).2.1,
      (applyRange_range _ _).2]

theorem parseComment_step (c ty : String) (d : UniformDef) :
    (parseComment c ty d).step
      = (match searchAux matchStepAt (stripComment c) with
         | some v => v
         | none => d.step) := by
  by_cases hemp : (stripComment c).isEmpty
  · have hnil : stripComment c = [] := by simpa using hemp
    simp [parseComment, hemp, hnil, searchAux]
  · simp only [parseComment, hemp, Bool.false_eq_true, if_false]
    rw [applyStep_step, (applyDefault_preserves _ _ _).2.2,
      (applyRange_preserves _ _).2]

theorem parseComment_value (c ty : String) (d : UniformDef) :
    (parseComment c ty d).value
      = (match searchAux matchDefaultAt (stripComment c) with
         | some (v, vs) =>
           if ty = "float" || ty = "int" then
             UVal.num (if ty = "int" then ((jsRound v : ℤ) : ℚ) else v)
           else
             match d.value with
             | .arr cur => .arr (overwriteLeading cur (v :: vs))
             | .num x => .num x
         | none => d.value) := by
  by_cases hemp : (stripComment c).isEmpty
  · have hnil : stripComment c = [] := by simpa using hemp
    simp [parseComment, hemp, hnil, searchAux]
  · simp only [parseComment, hemp, Bool.false_eq_true, if_false]
    rw [(applyStep_preserves _ _).2.2, applyDefault_value,
      (applyRange_preserves _ _).1]

theorem overwriteLeading_length (cur vs : List ℚ) :
    (overwriteLeading cur vs).length = cur.length := by
  induction cur generalizing vs with
  | nil => cases vs <;> rfl
  | cons c cs ih =>
    cases vs with
    | nil => rfl
    | cons v tl => simp [overwriteLeading, ih tl]

theorem overwriteLeading_getElem (cur vs : List ℚ) (i : Nat) :
    (overwriteLeading cur vs)[i]?
      = if i < vs.length ∧ i < cur.length then vs[i]? else cur[i]? := by
  induction cur generalizing vs i with
  | nil => cases vs <;> simp [overwriteLeading]
  | cons c cs ih =>
    cases vs with
    | nil => simp [overwriteLeading]
    | cons v tl =>
      cases i with
      | zero => simp [overwriteLeading]
      | succ n =>
        simp [overwriteLeading, ih tl n, Nat.succ_lt_succ_iff]

/-- C3: trailing-comment hints override the seeded descriptor fields
independently and in any order: for EVERY comment, declared type and seeded
descriptor, the resulting `min`/`max` are determined solely by the `range:`
search, the `step` solely by the `step:` search, and the `value` solely by
the `default:` search applied to the seeded value (scalar replacement,
half-up rounding for `int`, `overwriteLeading` for vectors); and
`overwriteLeading` provably keeps the length and replaces exactly the
supplied leading components, leaving every later component at its seeded
value.  Concretely: Scenario B (`range`, `default`, `step` on a float),
Scenario C (signed decimals, two-component `default` on a vec2), Scenario B
with the hints permuted yielding the identical descriptor, and a vec4 whose
two-component `default` leaves the seeded trailing components `0, 1`
untouched. -/
theorem parseComment_hint_scenarios :
    (∀ (c ty : String) (d : UniformDef),
      (parseComment c ty d).min
        = (match searchAux matchRangeAt (stripComment c) with
           | some (a, _) => a
           | none => d.min) ∧
      (parseComment c ty d).max
        = (match searchAux matchRangeAt (stripComment c) with
           | some (_, b) => b
           | none => d.max) ∧
      (parseComment c ty d).step
        = (match searchAux matchStepAt (stripComment c) with
           | some v => v
           | none => d.step) ∧
      (parseComment c ty d).value
        = (match searchAux matchDefaultAt (stripComment c) with
           | some (v, vs) =>
             if ty = "float" || ty = "int" then
               UVal.num (if ty = "int" then ((jsRound v : ℤ) : ℚ) else v)
             else
               match d.value with
               | .arr cur => .arr (overwriteLeading cur (v :: vs))
               | .num x => .num x
           | none => d.value)) ∧
    (∀ (cur vs : List ℚ), (overwriteLeading cur vs).length = cur.length) ∧
    (∀ (cur vs : List ℚ) (i : Nat),
      (overwriteLeading cur vs)[i]?
        = if i < vs.length ∧ i < cur.length then vs[i]? else cur[i]?) ∧
    parseUniforms "uniform float u_cells; // range: 2.0, 20.0, default: 8.0, step: 1.0"
      = [{ name := "u_cells", type := "float", value := .num 8, min := 2, max := 20, step := 1 }] ∧
    parseUniforms "uniform vec2 u_center; // range: -2.0, 2.0, default: -0.5, 0.0"
      = [{ name := "u_center", type := "vec2", value := .arr [mkRat (-1) 2, 0], min := -2, max := 2, step := mkRat 1 100 }] ∧
    parseUniforms "uniform float u_cells; // step: 1.0, default: 8.0, range: 2.0, 20.0"
      = [{ name := "u_cells", type := "float", value := .num 8, min := 2, max := 20, step := 1 }] ∧
    parseUniforms "uniform vec4 u_tint; // default: 0.25, 0.5"
      = [{ name := "u_tint", type := "vec4", value := .arr [mkRat 1 4, mkRat 1 2, 0, 1], min := 0, max := 1, step := mkRat 1 100 }] :=
  ⟨fun c ty d =>
    ⟨parseComment_min c ty d, parseComment_max c ty d,
     parseComment_step c ty d, parseComment_value c ty d⟩,
   overwriteLeading_length, overwriteLeading_getElem,
   by decide, by decide, by decide, by decide⟩

/-- C4: uniform discovery preserves the order in which declarations occur in
the source (the output is exactly the name-and-type–filtered match list, in
match order), and duplicate names are not deduplicated: a source declaring
`u_a`, `u_b`, `u_a` yields three descriptors named `u_a`, `u_b`, `u_a`. -/
theorem parseUniforms_order_contract :
    (∀ code : String,
      (parseUniforms code).map (fun d => d.name)
        = ((scanUniforms code).filter
            (fun d => !isBuiltin d.name && isSupported d.ty)).map (fun d => d.name)) ∧
    (parseUniforms "uniform float u_a;\nuniform float u_b;\nuniform float u_a;\n").map (fun d => d.name)
      = ["u_a", "u_b", "u_a"] := by
  constructor
  · intro code
    rw [parseUniforms, scanUniforms, parseUniformsAux_eq, List.map_map]
    refine List.map_congr_left fun d _ => ?_
    simp only [Function.comp_apply]
    exact mkDef_name d
  · decide

theorem trim_nil_of_all_space {l : List Char} (h : ∀ c ∈ l, jsIsSpace c = true) :
    jsTrim l = [] := by
  unfold jsTrim
  rw [List.dropWhile_eq_nil_iff.mpr h]
  rfl

theorem all_space_of_trim_nil {l : List Char} (h : jsTrim l = []) :
    ∀ c ∈ l, jsIsSpace c = true := by
  unfold jsTrim at h
  rw [List.reverse_eq_nil_iff, List.dropWhile_eq_nil_iff] at h
  intro c hc
  have hsplit : l.takeWhile jsIsSpace ++ l.dropWhile jsIsSpace = l :=
    List.takeWhile_append_dropWhile jsIsSpace l
  rw [← hsplit] at hc
  rcases List.mem_append.mp hc with h1 | h2
  · exact List.mem_takeWhile_imp h1
  · exact h c (List.mem_reverse.mpr h2)

theorem splitLines_ne_nil (l : List Char) : splitLines l ≠ [] := by
  cases l with
  | nil => simp [splitLines]
  | cons c rest =>
    rw [splitLines]
    split <;> simp

theorem mem_of_mem_splitLines {l piece : List Char}
    (hp : piece ∈ splitLines l) {c : Char} (hc : c ∈ piece) : c ∈ l := by
  induction l generalizing piece with
  | nil =>
    simp [splitLines] at hp
    subst hp
    simp at hc
  | cons a rest ih =>
    cases hr : splitLines rest with
    | nil => exact absurd hr (splitLines_ne_nil rest)
    | cons p ps =>
      rw [splitLines, hr] at hp
      by_cases ha : (a == '\n') = true
      · rw [if_pos ha] at hp
        rcases List.mem_cons.mp hp with rfl | hmem
        · simp at hc
        · exact List.mem_cons_of_mem a (ih (hr.symm ▸ hmem) hc)
      · rw [if_neg ha] at hp
        rcases List.mem_cons.mp hp with rfl | hmem
        · rcases List.mem_cons.mp hc with rfl | hc2
          · exact List.mem_cons_self _ _
          · have hmem2 : p ∈ splitLines rest := by
              rw [hr]
              exact List.mem_cons_self p ps
            exact List.mem_cons_of_mem a (ih hmem2 hc2)
        · exact List.mem_cons_of_mem a
            (ih (hr.symm ▸ List.mem_cons_of_mem p hmem) hc)

theorem processLine_eq_of_ne {raw : List Char} (h : (jsTrim raw).isEmpty = false) :
    processLine raw = some (lineDiag (jsTrim raw)) := by
  simp only [processLine, lineDiag, h, Bool.false_eq_true, if_false]
  cases matchLogLineAt (jsTrim raw) <;> rfl

theorem filterMap_processLine (pieces : List (List Char)) :
    pieces.filterMap processLine
      = ((pieces.map jsTrim).filter (fun t => !t.isEmpty)).map lineDiag := by
  induction pieces with
  | nil => rfl
  | cons a t ih =>
    by_cases h : (jsTrim a).isEmpty
    · have hp : processLine a = none := by simp [processLine, h]
      simp [List.filterMap_cons, hp, List.filter_cons, h, ih]
    · have hb : (jsTrim a).isEmpty = false := by simpa using h
      simp [List.filterMap_cons, processLine_eq_of_ne hb, List.filter_cons, hb, ih]

/-- C5: the info-log parser is total (it is a plain function) and implements
exactly the per-line contract: every line is trimmed, empty lines are the
only ones dropped, a line matching `SEVERITY: 0:LINE: message`
(case-insensitive `ERROR`/`WARNING`) yields the parsed line number with the
trimmed message, and every other non-empty line is kept whole at line 0 —
together with the concrete driver line of Scenario D, an unrecognised line,
and a lowercase `warning` line. -/
theorem parseInfoLog_contract :
    (∀ log : String, parseInfoLog log = specInfoLog log) ∧
    parseInfoLog ("ERROR: 0:2: " ++ sqStr ++ "float" ++ sqStr ++ " : precision qualifier required")
      = [⟨2, sqStr ++ "float" ++ sqStr ++ " : precision qualifier required"⟩] ∧
    parseInfoLog "Internal compiler error" = [⟨0, "Internal compiler error"⟩] ∧
    parseInfoLog "warning: 1:7:   foo bar" = [⟨7, "foo bar"⟩] := by
  refine ⟨?_, by decide, by decide, by decide⟩
  intro log
  dsimp only [parseInfoLog, specInfoLog]
  simp only [String.toList]
  by_cases h1 : log.data.isEmpty
  · have hnil : log.data = [] := by simpa using h1
    rw [hnil]
    simp [splitLines, jsTrim]
  · by_cases h2 : (jsTrim log.data).isEmpty
    · have h2n : jsTrim log.data = [] := by simpa using h2
      rw [if_pos (by simp [h2n])]
      have hall : ∀ piece ∈ splitLines log.data, (jsTrim piece).isEmpty = true := by
        intro piece hp
        have hsp : ∀ c ∈ piece, jsIsSpace c = true := fun c hc =>
          all_space_of_trim_nil h2n c (mem_of_mem_splitLines hp hc)
        simp [trim_nil_of_all_space hsp]
      have hfil : ((splitLines log.data).map jsTrim).filter (fun t => !t.isEmpty) = [] := by
        rw [List.filter_eq_nil_iff]
        intro t ht
        rcases List.mem_map.mp ht with ⟨piece, hp, rfl⟩
        simp [hall piece hp]
      rw [hfil]
      rfl
    · have h1n : log.data ≠ [] := by simpa using h1
      have h2n : jsTrim log.data ≠ [] := by simpa using h2
      rw [if_neg (by simp [h1n, h2n])]
      exact filterMap_processLine _


theorem compile_fail_preserves (env : GLEnv) (src : String) (st : WebGLRenderer)
    (hgl : st.gl = true)
    (hfail : (WebGLRenderer.compile env src st).2.1.success = false) :
    (WebGLRenderer.compile env src st).1.program = st.program ∧
    (WebGLRenderer.compile env src st).1.gl = st.gl ∧
    (WebGLRenderer.compile env src st).1.contextLost = st.contextLost := by
  cases hv : env.vertOutcome <;> cases hf : env.fragOutcome src <;>
    cases hl : env.linkOutcome src <;>
    simp_all [WebGLRenderer.compile, compileShader, linkProgram,
      WebGLRenderer.deleteProgram]

theorem compile_records_source_aux (env : GLEnv) (src : String)
    (st : WebGLRenderer) (hgl : st.gl = true) :
    (WebGLRenderer.compile env src st).1.lastFragmentSource = some src := by
  cases hv : env.vertOutcome <;> cases hf : env.fragOutcome src <;>
    cases hl : env.linkOutcome src <;>
    simp_all [WebGLRenderer.compile, compileShader, linkProgram,
      WebGLRenderer.deleteProgram]

theorem render_draws (st : WebGLRenderer) (p : Nat) (t : ℚ) (res mouse : ℚ × ℚ)
    (hgl : st.gl = true) (hlost : st.contextLost = false)
    (hp : st.program = some p) :
    GLCall.useProgram p ∈ st.render t res mouse ∧
    GLCall.drawArrays 0 3 ∈ st.render t res mouse := by
  unfold WebGLRenderer.render
  rw [hp]
  simp [hgl, hlost]

/-- C1: when the engine holds a current program `p` (installed by an earlier
successful compile) and a `compile` call returns `success := false`, `p`
stays installed — the failed attempt's program is never installed — and a
subsequent `render` still activates `p` and issues the draw call (it is
neither a no-op nor a cleared-only frame); only a successful compile swaps
the program. -/
theorem compile_failure_keeps_program :
    ∀ (env : GLEnv) (st : WebGLRenderer) (src : String) (p : Nat)
      (t : ℚ) (res mouse : ℚ × ℚ),
      st.gl = true → st.contextLost = false → st.program = some p →
      (WebGLRenderer.compile env src st).2.1.success = false →
      ((WebGLRenderer.compile env src st).1.program = some p ∧
       GLCall.useProgram p ∈ (WebGLRenderer.compile env src st).1.render t res mouse ∧
       GLCall.drawArrays 0 3 ∈ (WebGLRenderer.compile env src st).1.render t res mouse) := by
  intro env st src p t res mouse hgl hlost hp hfail
  obtain ⟨h1, h2, h3⟩ := compile_fail_preserves env src st hgl hfail
  have hp' : (WebGLRenderer.compile env src st).1.program = some p := h1.trans hp
  have hgl' : (WebGLRenderer.compile env src st).1.gl = true := h2.trans hgl
  have hlost' : (WebGLRenderer.compile env src st).1.contextLost = false := h3.trans hlost
  obtain ⟨m1, m2⟩ := render_draws _ p t res mouse hgl' hlost' hp'
  exact ⟨hp', m1, m2⟩

theorem compile_failure_keeps_program_witness :
    (readyState.gl = true ∧ readyState.contextLost = false ∧
     readyState.program = some 5 ∧
     (WebGLRenderer.compile envFragFail "bad" readyState).2.1.success = false) ∧
    ((WebGLRenderer.compile envFragFail "bad" readyState).1.program = some 5 ∧
     GLCall.useProgram 5 ∈
       (WebGLRenderer.compile envFragFail "bad" readyState).1.render 1 (2, 2) (0, 0) ∧
     GLCall.drawArrays 0 3 ∈
       (WebGLRenderer.compile envFragFail "bad" readyState).1.render 1 (2, 2) (0, 0)) :=
  ⟨⟨rfl, rfl, rfl, by decide⟩,
   compile_failure_keeps_program envFragFail readyState "bad" 5 1 (2, 2) (0, 0)
     rfl rfl rfl (by decide)⟩

/-- C6 counterexample: on an engine whose context was never acquired
(`initial`, where `gl` is not held), `compile "x"` does NOT record `"x"` as
the last-known fragment source — the claim's "for every engine state" fails
at this state (the guard returns before the recording assignment). -/
theorem compile_uninitialised_skips_recording :
    (WebGLRenderer.compile env0 "x" WebGLRenderer.initial).1.lastFragmentSource
      ≠ some "x" := by
  decide

/-- C6 (amended): for every engine state HOLDING A DEVICE CONTEXT and every
source string, `compile(source)` records `source` as the engine's last-known
fragment source regardless of whether the compile succeeds or fails (without
a context the guard returns before the recording assignment). -/
theorem compile_records_last_source :
    ∀ (env : GLEnv) (src : String) (st : WebGLRenderer),
      st.gl = true →
      (WebGLRenderer.compile env src st).1.lastFragmentSource = some src := by
  intro env src st hgl
  exact compile_records_source_aux env src st hgl

theorem compile_records_last_source_witness :
    readyState.gl = true ∧
    (WebGLRenderer.compile envFragFail "new" readyState).1.lastFragmentSource
      = some "new" :=
  ⟨rfl, compile_records_last_source envFragFail "new" readyState rfl⟩

/-- C7: `render` is a no-op whenever no current program exists or the
context-lost flag is set: the emitted GPU-call trace is empty.  (In the
embedding `render` is a function that returns only a trace; the source
method assigns no field, so the engine state — program, custom-uniform map,
last-known source, mouse position — is unchanged by construction, and
totality of the Lean function reflects that it cannot throw.) -/
theorem render_noop_contract :
    ∀ (st : WebGLRenderer) (t : ℚ) (res mouse : ℚ × ℚ),
      st.program = none ∨ st.contextLost = true →
      st.render t res mouse = [] := by
  intro st t res mouse h
  unfold WebGLRenderer.render
  rcases h with h | h
  · rw [h]
  · cases hp : st.program with
    | none => rfl
    | some p => simp [h]

theorem render_noop_contract_witness :
    (({ readyState with contextLost := true } : WebGLRenderer).program = none ∨
     ({ readyState with contextLost := true } : WebGLRenderer).contextLost = true) ∧
    ({ readyState with contextLost := true } : WebGLRenderer).render 1 (2, 2) (0, 0) = [] :=
  ⟨Or.inr rfl,
   render_noop_contract { readyState with contextLost := true } 1 (2, 2) (0, 0) (Or.inr rfl)⟩

/-- C8: `startLoop` is idempotent — while the loop is running it is the
identity on the whole state, so in particular the animation clock
(`startTime`) is not reset — whereas stopping and restarting the loop sets
the clock origin to the restart instant, and a subsequent frame callback
passes `render` an elapsed time measured from that instant
(`now - t`). -/
theorem startLoop_idempotent_clock :
    (∀ (st : WebGLRenderer) (now : ℚ) (i : Nat),
      st.rafId.isSome = true → WebGLRenderer.startLoop now i st = st) ∧
    (∀ (st : WebGLRenderer) (t now : ℚ) (i j : Nat),
      st.contextLost = false →
      (WebGLRenderer.startLoop t i st.stopLoop).startTime = t ∧
      (WebGLRenderer.tick now j (WebGLRenderer.startLoop t i st.stopLoop)).2
        = (WebGLRenderer.startLoop t i st.stopLoop).render (now - t)
            (st.canvas.getD (0, 0)) st.mousePos) := by
  constructor
  · intro st now i h
    simp [WebGLRenderer.startLoop, h]
  · intro st t now i j h
    constructor
    · simp [WebGLRenderer.stopLoop, WebGLRenderer.startLoop]
    · simp [WebGLRenderer.stopLoop, WebGLRenderer.startLoop, WebGLRenderer.tick, h]

theorem startLoop_idempotent_clock_witness :
    (runningState.rafId.isSome = true ∧
     WebGLRenderer.startLoop 5 1 runningState = runningState) ∧
    (readyState.contextLost = false ∧
     (WebGLRenderer.startLoop 3 1 readyState.stopLoop).startTime = 3 ∧
     (WebGLRenderer.tick 10 2 (WebGLRenderer.startLoop 3 1 readyState.stopLoop)).2
       = (WebGLRenderer.startLoop 3 1 readyState.stopLoop).render (10 - 3)
           (readyState.canvas.getD (0, 0)) readyState.mousePos) :=
  ⟨⟨rfl, startLoop_idempotent_clock.1 runningState 5 1 rfl⟩,
   ⟨rfl, startLoop_idempotent_clock.2 readyState 3 10 1 2 rfl⟩⟩

/-- C10: calling `compile` on an engine that holds no device context (`init`
never called or failed, or the instance destroyed) returns the structured
failure `{success: false, errors: [{line: 0, message: "WebGL context not
initialised"}]}` and leaves the state — in particular the last-known
fragment source — completely unchanged; and `destroy` always leaves the
engine without a context, so the guard applies after destruction. -/
theorem compile_without_context_contract :
    (∀ (st : WebGLRenderer) (env : GLEnv) (src : String),
      st.gl = false →
      WebGLRenderer.compile env src st
        = (st, ⟨false, [⟨0, "WebGL context not initialised"⟩]⟩, [])) ∧
    (∀ st : WebGLRenderer, (st.destroy.1).gl = false) := by
  constructor
  · intro st env src h
    unfold WebGLRenderer.compile
    rw [if_pos h]
  · intro st
    rfl

theorem compile_without_context_contract_witness :
    (WebGLRenderer.initial.gl = false ∧
     WebGLRenderer.compile env0 "x" WebGLRenderer.initial
       = (WebGLRenderer.initial,
          ⟨false, [⟨0, "WebGL context not initialised"⟩]⟩, [])) ∧
    (WebGLRenderer.initial.destroy.1).gl = false :=
  ⟨⟨rfl, compile_without_context_contract.1 WebGLRenderer.initial env0 "x" rfl⟩,
   compile_without_context_contract.2 WebGLRenderer.initial⟩

/-- C9 counterexample: the stale pre-loss handles ARE passed to the release
calls again during the restore recompile — on a renderer whose pre-loss
program is handle 5 (stages 3 and 4), the lost-then-restored trace contains
`deleteProgram 5`, `deleteShader 3` and `deleteShader 4`, contradicting the
claim that the already-invalid pre-loss handles are not released again. -/
theorem restore_releases_stale_handles :
    readyState.program = some 5 ∧
    GLCall.deleteProgram 5 ∈ (restoreFlow env0 readyState).2 ∧
    GLCall.deleteShader 3 ∈ (restoreFlow env0 readyState).2 ∧
    GLCall.deleteShader 4 ∈ (restoreFlow env0 readyState).2 := by
  refine ⟨rfl, ?_, ?_, ?_⟩ <;> decide

/-- C9 (amended): on a context-restore signal following a loss, with no
external call required, the engine clears the Lost flag, recreates the draw
geometry (a fresh VAO), and — whenever a last-known fragment source exists —
re-runs `compile` with that source (here under a driver on which that
recompile succeeds), so the program and every uniform binding (built-in and
custom) are rebuilt against the new program; the stale pre-loss handles are
passed to the regular release calls once more during the swap (harmless on
the restored context, but they ARE released again — see the counterexample);
afterwards `render` draws with the newly compiled program. -/
theorem restore_recompiles_contract :
    ∀ (env : GLEnv) (st : WebGLRenderer) (src : String),
      st.gl = true → st.lastFragmentSource = some src →
      env.vertOutcome = .ok → env.fragOutcome src = .ok →
      env.linkOutcome src = .ok →
      ((restoreFlow env st).1.contextLost = false ∧
       (restoreFlow env st).1.vao = some st.nextId ∧
       (restoreFlow env st).1.program = some (st.nextId + 3) ∧
       (restoreFlow env st).1.lastFragmentSource = some src ∧
       (restoreFlow env st).1.uTime = env.getLoc src "u_time" ∧
       (restoreFlow env st).1.uResolution = env.getLoc src "u_resolution" ∧
       (restoreFlow env st).1.uMouse = env.getLoc src "u_mouse" ∧
       (restoreFlow env st).1.customUniforms
         = st.customUniforms.map
             (fun e => (e.1, { e.2 with location := env.getLoc src e.1 })) ∧
       (∀ p, st.program = some p → GLCall.deleteProgram p ∈ (restoreFlow env st).2) ∧
       (∀ (t : ℚ) (res mouse : ℚ × ℚ),
         GLCall.useProgram (st.nextId + 3) ∈ (restoreFlow env st).1.render t res mouse ∧
         GLCall.drawArrays 0 3 ∈ (restoreFlow env st).1.render t res mouse)) := by
  intro env st src hgl hsrc hv hf hl
  have hred : restoreFlow env st
      = ({ st with
            contextLost := false, rafId := none,
            vao := some st.nextId,
            vertexShader := some (st.nextId + 1),
            fragmentShader := some (st.nextId + 2),
            program := some (st.nextId + 3),
            lastFragmentSource := some src,
            uTime := env.getLoc src "u_time",
            uResolution := env.getLoc src "u_resolution",
            uMouse := env.getLoc src "u_mouse",
            programSource := some src,
            nextId := st.nextId + 4,
            customUniforms := st.customUniforms.map
              (fun e => (e.1, { e.2 with location := env.getLoc src e.1 })) },
         GLCall.createVertexArray st.nextId ::
           ([GLCall.createShader (st.nextId + 1)]
            ++ [GLCall.createShader (st.nextId + 2)]
            ++ [GLCall.createProgram (st.nextId + 3)]
            ++ ((match st.program with
                 | some p => [GLCall.deleteProgram p] | none => [])
                ++ (match st.vertexShader with
                    | some s => [GLCall.deleteShader s] | none => [])
                ++ (match st.fragmentShader with
                    | some s => [GLCall.deleteShader s] | none => [])))) := by
    simp [restoreFlow, WebGLRenderer.handleContextRestored,
      WebGLRenderer.handleContextLost, WebGLRenderer.reInit,
      WebGLRenderer.compile, compileShader, linkProgram,
      WebGLRenderer.deleteProgram, hgl, hsrc, hv, hf, hl]
  rw [hred]
  refine ⟨rfl, rfl, rfl, rfl, rfl, rfl, rfl, rfl, ?_, ?_⟩
  · intro p hp
    simp [hp]
  · intro t res mouse
    exact render_draws _ _ t res mouse hgl rfl rfl

theorem restore_recompiles_contract_witness :
    (readyState.gl = true ∧ readyState.lastFragmentSource = some "old" ∧
     env0.vertOutcome = .ok ∧ env0.fragOutcome "old" = .ok ∧
     env0.linkOutcome "old" = .ok) ∧
    ((restoreFlow env0 readyState).1.contextLost = false ∧
     (restoreFlow env0 readyState).1.vao = some readyState.nextId ∧
     (restoreFlow env0 readyState).1.program = some (readyState.nextId + 3) ∧
     (restoreFlow env0 readyState).1.lastFragmentSource = some "old" ∧
     (restoreFlow env0 readyState).1.uTime = env0.getLoc "old" "u_time" ∧
     (restoreFlow env0 readyState).1.uResolution = env0.getLoc "old" "u_resolution" ∧
     (restoreFlow env0 readyState).1.uMouse = env0.getLoc "old" "u_mouse" ∧
     (restoreFlow env0 readyState).1.customUniforms
       = readyState.customUniforms.map
           (fun e => (e.1, { e.2 with location := env0.getLoc "old" e.1 })) ∧
     (∀ p, readyState.program = some p →
        GLCall.deleteProgram p ∈ (restoreFlow env0 readyState).2) ∧
     (∀ (t : ℚ) (res mouse : ℚ × ℚ),
       GLCall.useProgram (readyState.nextId + 3)
         ∈ (restoreFlow env0 readyState).1.render t res mouse ∧
       GLCall.drawArrays 0 3
         ∈ (restoreFlow env0 readyState).1.render t res mouse)) :=
  ⟨⟨rfl, rfl, rfl, rfl, rfl⟩,
   restore_recompiles_contract env0 readyState "old" rfl rfl rfl rfl rfl⟩
